import Mathlib

/-
  Verification development for the DQN training core of the
  smart-traffic-management repository
  (backend/app/simulator/train_agent.py and env_sumo_rl.py).

  Modelling conventions:
  * Python/torch floating-point numerics are idealized over `Rat`.
  * Randomness (`random.random`, `random.randint`, `random.sample`) is made
    explicit: each drawn value (or the list of drawn buffer indices) is an
    extra argument of the embedded function.
  * The torch autograd/optimizer step (`loss.backward(); optimizer.step()`)
    is an external library call; it is passed in as an explicit update
    function `optStep : DQN → Rat → DQN`, the way the random draws are.
  * Stateful Python methods become explicit state passing.
-/

set_option maxHeartbeats 1000000
set_option linter.unusedVariables false

namespace TrafficRL

/-- A state observation: the per-edge queue-length vector handed around as a
numpy array / torch tensor in the source. -/
abbrev Obs := List Rat

/-- One replay transition, the tuple
`(state, action, reward, next_state, done)` pushed by
`ReplayBuffer.push` (train_agent.py line 77). -/
structure Transition where
  state : Obs
  action : Nat
  reward : Rat
  next_state : Obs
  done : Bool
deriving Repr, DecidableEq

/-- Semantics of `collections.deque(maxlen=capacity)` under `append`:
the new element goes to the right and, past capacity, elements fall off
the left, so only the last `capacity` elements are kept. -/
def dequeAppend (capacity : Nat) (buf : List Transition) (t : Transition) :
    List Transition :=
  (buf ++ [t]).drop ((buf ++ [t]).length - capacity)

/-- Embeds `ReplayBuffer` (train_agent.py lines 59-88): `self.buffer` is a
`deque(maxlen=capacity)`. -/
structure ReplayBuffer where
  capacity : Nat
  buffer : List Transition
deriving Repr, DecidableEq

/-- Embeds `ReplayBuffer.__init__` with the given capacity: an empty deque. -/
def ReplayBuffer.init (capacity : Nat) : ReplayBuffer :=
  { capacity := capacity, buffer := [] }

/-- Embeds `ReplayBuffer.push` (line 77): `self.buffer.append(transition)`. -/
def ReplayBuffer.push (rb : ReplayBuffer) (t : Transition) : ReplayBuffer :=
  { rb with buffer := dequeAppend rb.capacity rb.buffer t }

/-- Embeds `ReplayBuffer.__len__` (line 88). -/
def ReplayBuffer.size (rb : ReplayBuffer) : Nat := rb.buffer.length

/-- A sequence of `push` calls, oldest first. -/
def ReplayBuffer.pushList (rb : ReplayBuffer) (ts : List Transition) :
    ReplayBuffer :=
  ts.foldl ReplayBuffer.push rb

/-- The exceptions `ReplayBuffer.sample` can raise (both are `ValueError`s
in Python, with different origins). -/
inductive SampleError
  /-- Error of `random.sample(self.buffer, batch_size)` with
  `batch_size > len(self.buffer)`: "Sample larger than population". -/
  | insufficientData
  /-- Error of `states, actions, rewards, next_states, dones = zip(*batch)` with an
  empty `batch`: unpacking zero values into five names. -/
  | unpackError
deriving Repr, DecidableEq

/-- The five parallel sequences returned by `ReplayBuffer.sample`
(lines 83-84), aligned by index. -/
structure Batch where
  states : List Obs
  actions : List Nat
  rewards : List Rat
  next_states : List Obs
  dones : List Bool
deriving Repr, DecidableEq

/-- The transitions selected by `random.sample`, described by the list of
drawn buffer indices `sel` (the explicit randomness). Out-of-range indices
are skipped; the theorems always assume a valid draw. -/
def drawBatch (buf : List Transition) (sel : List Nat) : List Transition :=
  sel.filterMap (fun i => buf[i]?)

/-- Embeds `zip(*batch)` followed by the five `np.array` constructions: the batch
is split into five index-aligned columns. -/
def mkBatch (batch : List Transition) : Batch :=
  { states := batch.map (·.state)
    actions := batch.map (·.action)
    rewards := batch.map (·.reward)
    next_states := batch.map (·.next_state)
    dones := batch.map (·.done) }

/-- Embeds `ReplayBuffer.sample` (lines 79-84).  `random.sample` raises when the
requested size exceeds the population; `zip(*batch)` raises when the batch
is empty; otherwise the five aligned columns are returned.  The method
never writes `self.buffer`, so the buffer component passes through
unchanged. -/
def ReplayBuffer.sample (rb : ReplayBuffer) (batch_size : Nat)
    (sel : List Nat) : Except SampleError Batch × ReplayBuffer :=
  ((if rb.buffer.length < batch_size then .error .insufficientData
    else
      let batch := drawBatch rb.buffer sel
      if batch.isEmpty then .error .unpackError
      else .ok (mkBatch batch)), rb)

/-- One `nn.Linear` layer: a weight matrix (rows = output features) and a
bias vector. -/
structure Linear where
  weight : List (List Rat)
  bias : List Rat
deriving Repr, DecidableEq

/-- Dot product of a weight row with the input vector. -/
def dot (w x : List Rat) : Rat :=
  (List.zipWith (· * ·) w x).sum

/-- Applying a linear layer: `W·x + b`, one output per weight row. -/
def Linear.apply (l : Linear) (x : List Rat) : List Rat :=
  List.zipWith (fun w b => dot w x + b) l.weight l.bias

/-- Embeds `F.relu` on one coordinate. -/
def relu (x : Rat) : Rat := max x 0

/-- The `DQN` module (train_agent.py lines 22-56): a 3-layer MLP. -/
structure DQN where
  fc1 : Linear
  fc2 : Linear
  fc3 : Linear
deriving Repr, DecidableEq

/-- Embeds `DQN.forward` (lines 44-56): `fc3(relu(fc2(relu(fc1(x)))))`. -/
def DQN.forward (net : DQN) (x : List Rat) : List Rat :=
  let h1 := (net.fc1.apply x).map relu
  let h2 := (net.fc2.apply h1).map relu
  net.fc3.apply h2

/-- First index of the maximum of a list of Q-values, as documented for
`torch.argmax` ("the index of the first maximal value"); `bi`/`bv` track the
best index and value so far, `i` the index of the head of the remaining
list. A strict comparison keeps the earlier index on ties. -/
def argmaxAux : Nat → Rat → Nat → List Rat → Nat
  | bi, _, _, [] => bi
  | bi, bv, i, q :: qs =>
    if bv < q then argmaxAux i q (i + 1) qs else argmaxAux bi bv (i + 1) qs

/-- Embeds `q_values.argmax().item()` (line 160): index of the first maximum
(0 on the empty list, which torch would reject). -/
def argmaxIdx : List Rat → Nat
  | [] => 0
  | q :: qs => argmaxAux 0 q 1 qs

/-- Embeds `torch.FloatTensor(dones)`: `True ↦ 1.0`, `False ↦ 0.0` (line 185). -/
def boolToRat (b : Bool) : Rat := if b then 1 else 0

/-- Embeds `tensor.max(1)[0]` over the action dimension (line 192): maximum of a
row of Q-values (0 on the empty row, which torch would reject). -/
def listMax : List Rat → Rat
  | [] => 0
  | q :: qs => qs.foldl max q

/-- Embeds `F.mse_loss(pred, target)` (line 196): mean of squared differences. -/
def mseLoss (pred target : List Rat) : Rat :=
  (List.zipWith (fun p t => (p - t) ^ 2) pred target).sum / (pred.length : Rat)

/-- Embeds `DQNAgent` (train_agent.py lines 91-231).  `learning_rate` is stored
only inside the Adam optimizer, which is modelled as the external update
function passed to `train`; the remaining constructor arguments are kept as
fields exactly as `__init__` assigns them. -/
structure DQNAgent where
  state_dim : Nat
  action_dim : Nat
  gamma : Rat
  epsilon : Rat
  epsilon_decay : Rat
  epsilon_min : Rat
  batch_size : Nat
  q_network : DQN
  target_network : DQN
  replay_buffer : ReplayBuffer
  loss_history : List Rat
deriving Repr, DecidableEq

/-- Embeds `DQNAgent.__init__` (lines 98-139).  `net0` is the randomly initialized
`DQN(state_dim, action_dim)` (the torch random init made explicit);
`load_state_dict` makes the target network a hard copy of it.  The
constructor performs no parameter validation: every argument is stored
verbatim and an agent is always returned. -/
def DQNAgent.init (state_dim action_dim : Nat) (learning_rate : Rat)
    (gamma epsilon epsilon_decay epsilon_min : Rat)
    (buffer_size batch_size : Nat) (net0 : DQN) : DQNAgent :=
  { state_dim := state_dim
    action_dim := action_dim
    gamma := gamma
    epsilon := epsilon
    epsilon_decay := epsilon_decay
    epsilon_min := epsilon_min
    batch_size := batch_size
    q_network := net0
    target_network := net0
    replay_buffer := ReplayBuffer.init buffer_size
    loss_history := [] }

/-- Embeds `DQNAgent.get_action` (lines 141-160).  `randUniform` models the
`random.random()` draw and `randAction` the `random.randint(0,
action_dim - 1)` draw; with `training = false` neither is consulted and the
greedy branch returns `argmax` of the online Q-values. -/
def DQNAgent.get_action (a : DQNAgent) (state : Obs) (training : Bool)
    (randUniform : Rat) (randAction : Nat) : Nat :=
  if training = true ∧ randUniform < a.epsilon then randAction
  else argmaxIdx (a.q_network.forward state)

/-- Embeds `DQNAgent.store_transition` (lines 162-164). -/
def DQNAgent.store_transition (a : DQNAgent) (t : Transition) : DQNAgent :=
  { a with replay_buffer := a.replay_buffer.push t }

/-- The bootstrap targets of `DQNAgent.train` (line 193):
`rewards + (1 - dones) * self.gamma * max_next_q_values`, elementwise over
the batch. -/
def DQNAgent.bootstrapTargets (a : DQNAgent) (rewards : List Rat)
    (dones : List Bool) (max_next_q : List Rat) : List Rat :=
  List.zipWith3 (fun r d m => r + (1 - boolToRat d) * a.gamma * m)
    rewards dones max_next_q

/-- Embeds `DQNAgent.train` (lines 166-204).  Returns `None` when the buffer holds
fewer transitions than `batch_size`; otherwise samples a batch (`sel` is the
explicit random draw), computes the gathered online Q-values, the bootstrap
targets against the frozen target network (`torch.no_grad`), the MSE loss,
applies one optimizer step (`optStep`, the externally supplied
autograd/Adam update) to the online network only, records the loss and
returns it.  Exceptions raised by `sample` propagate. -/
def DQNAgent.train (optStep : DQN → Rat → DQN) (a : DQNAgent)
    (sel : List Nat) : Except SampleError (Option Rat × DQNAgent) :=
  if a.replay_buffer.size < a.batch_size then .ok (none, a)
  else
    match (a.replay_buffer.sample a.batch_size sel).1 with
    | .error e => .error e
    | .ok batch =>
        let current_q := List.zipWith
          (fun s act => (a.q_network.forward s).getD act 0)
          batch.states batch.actions
        let max_next_q := batch.next_states.map
          (fun s => listMax (a.target_network.forward s))
        let target_q := a.bootstrapTargets batch.rewards batch.dones max_next_q
        let loss := mseLoss current_q target_q
        .ok (some loss,
          { a with q_network := optStep a.q_network loss
                   loss_history := a.loss_history ++ [loss] })

/-- Embeds `DQNAgent.update_target_network` (lines 206-208):
`load_state_dict` copies the online parameters into the target network. -/
def DQNAgent.update_target_network (a : DQNAgent) : DQNAgent :=
  { a with target_network := a.q_network }

/-- Embeds `DQNAgent.decay_epsilon` (lines 210-212):
`epsilon = max(epsilon_min, epsilon * epsilon_decay)`. -/
def DQNAgent.decay_epsilon (a : DQNAgent) : DQNAgent :=
  { a with epsilon := max a.epsilon_min (a.epsilon * a.epsilon_decay) }

/-- Applies `m` successive calls of `decay_epsilon`. -/
def DQNAgent.decayIter : Nat → DQNAgent → DQNAgent
  | 0, a => a
  | m + 1, a => DQNAgent.decayIter m a.decay_epsilon

/-
  Environment embedding (env_sumo_rl.py).  The live SUMO simulator behind
  TraCI is external to the repository; it is modelled as a read-only world
  (`SumoWorld`) plus the TraCI connection state (`TraciState`).
-/

/-- The external SUMO world as observed through TraCI, indexed by
simulation time: halted-vehicle counts and summed accumulated waiting time
per edge, and the number of vehicles the simulation still expects. -/
structure SumoWorld where
  halting : Nat → String → Nat
  waiting : Nat → String → Rat
  minExpected : Nat → Nat

/-- The state of the module-level TraCI connection:
whether a connection is active (established by `traci.start`, dropped by
`traci.close`), the simulation time, and the current phase of the traffic
light. -/
structure TraciState where
  connected : Bool
  time : Nat
  phase : Nat
deriving Repr, DecidableEq

/-- The TraCI state before any `traci.start`: no connection. -/
def TraciState.init : TraciState := { connected := false, time := 0, phase := 0 }

/-- The errors a `SumoTrafficEnv.step` call can surface.  The source
defines no error classes of its own; these model the Python exceptions
that escape `step`, plus the `InvalidStateError` of the specification
taxonomy, which is shown to be unreachable (no code path produces it). -/
inductive StepErr
  /-- Models the `KeyError` from `self.phases[action]` with `action ∉ {0, 1}`
  (line 233); not a `TraCIException`, so the `except` clause does not
  catch it. -/
  | keyError
  /-- Models the `traci.exceptions.FatalTraCIError` ("Not connected") raised by any
  TraCI command while no connection is active.  `FatalTraCIError` is not a
  subclass of `TraCIException`, so the `except TraCIException` clause in
  `_set_traffic_light_phase` does not catch it. -/
  | notConnected
  /-- Modelled from the spec: the `InvalidStateError` of the
  specification error taxonomy (given as "stepping a non-READY Environment").
  No class of this name exists in the repository; the constructor exists
  only so that theorems can state that `step` never produces it. -/
  | invalidStateError
deriving Repr, DecidableEq

/-- The `info` dict returned by `step` (lines 195-201). -/
structure StepInfo where
  step : Nat
  queue_length : Rat
  waiting_time : Rat
  total_queue : Rat
  total_waiting : Rat
deriving Repr, DecidableEq

/-- Embeds `SumoTrafficEnv` (env_sumo_rl.py lines 19-282); the fields `__init__`
assigns, minus the constants (`tl_id`, edge names, phase table) which are
modelled as top-level definitions. -/
structure SumoTrafficEnv where
  max_steps : Nat
  delta_time : Nat
  current_step : Nat
  sumo_running : Bool
  total_waiting_time : Rat
  total_queue_length : Rat
deriving Repr, DecidableEq

/-- Embeds `SumoTrafficEnv.__init__` (lines 27-76): tracking state starts at zero
and `sumo_running = False`; no TraCI connection is opened. -/
def SumoTrafficEnv.init (max_steps delta_time : Nat) : SumoTrafficEnv :=
  { max_steps := max_steps
    delta_time := delta_time
    current_step := 0
    sumo_running := false
    total_waiting_time := 0
    total_queue_length := 0 }

/-- Embeds `self.incoming_edges` (line 52). -/
def incoming_edges : List String := ["n2c", "s2c", "e2c", "w2c"]

/-- Embeds `self.phases` (lines 65-68): a dict mapping action 0 to SUMO phase 0
and action 1 to SUMO phase 2; any other key raises `KeyError`. -/
def phases (action : Nat) : Option Nat :=
  if action = 0 then some 0 else if action = 1 then some 2 else none

/-- Embeds `_get_state` (lines 205-222) on an active connection: the
halted-vehicle count of each incoming edge (per-edge `TraCIException`s are
caught and replaced by 0; with the world total, readings always
succeed). -/
def getStateObs (w : SumoWorld) (tr : TraciState) : List Rat :=
  incoming_edges.map (fun e => ((w.halting tr.time e : Nat) : Rat))

/-- Embeds `_get_total_waiting_time` (lines 244-261) on an active connection. -/
def getTotalWaiting (w : SumoWorld) (tr : TraciState) : Rat :=
  (incoming_edges.map (fun e => w.waiting tr.time e)).sum

/-- Embeds `SumoTrafficEnv.step` (lines 153-203).  The phase lookup happens
first; with no active connection, `traci.trafficlight.setPhase` raises
`FatalTraCIError`, which nothing catches, so the call aborts with the
environment and connection unchanged.  On an active connection the phase
is set, the simulation advances `delta_time` ticks, and the new state,
reward (negative total queue with a −10 penalty past queue length 15),
done flag and info dict are returned.  The method never consults
`self.sumo_running`. -/
def SumoTrafficEnv.step (w : SumoWorld) (env : SumoTrafficEnv)
    (tr : TraciState) (action : Nat) :
    Except StepErr (List Rat × Rat × Bool × StepInfo) ×
      SumoTrafficEnv × TraciState :=
  match phases action with
  | none => (.error .keyError, env, tr)
  | some phase_index =>
    if tr.connected then
      let tr1 : TraciState := { tr with phase := phase_index }
      let tr2 : TraciState := { tr1 with time := tr1.time + env.delta_time }
      let env1 := { env with current_step := env.current_step + env.delta_time }
      let next_state := getStateObs w tr2
      let queue_length := next_state.sum
      let env2 := { env1 with
        total_queue_length := env1.total_queue_length + queue_length }
      let reward := if queue_length > 15 then -queue_length - 10
                    else -queue_length
      let waiting_time := getTotalWaiting w tr2
      let env3 := { env2 with
        total_waiting_time := env2.total_waiting_time + waiting_time }
      let done := decide (env3.max_steps ≤ env3.current_step) ||
        decide (w.minExpected tr2.time = 0)
      let info : StepInfo :=
        { step := env3.current_step
          queue_length := queue_length
          waiting_time := waiting_time
          total_queue := env3.total_queue_length
          total_waiting := env3.total_waiting_time }
      (.ok (next_state, reward, done, info), env3, tr2)
    else (.error .notConnected, env, tr)

/-- Embeds `SumoTrafficEnv.close` (lines 263-267): only when `sumo_running` is
set does it call `traci.close()` and clear the flag; otherwise it is a
no-op. -/
def SumoTrafficEnv.close (env : SumoTrafficEnv) (tr : TraciState) :
    SumoTrafficEnv × TraciState :=
  if env.sumo_running then
    ({ env with sumo_running := false }, { tr with connected := false })
  else (env, tr)

/-
  Helper lemmas about the replay buffer.
-/

theorem dequeAppend_length (c : Nat) (b : List Transition) (t : Transition) :
    (dequeAppend c b t).length = min (b.length + 1) c := by
  simp [dequeAppend]
  omega

theorem dequeAppend_eq (c : Nat) (b : List Transition) (t : Transition) :
    dequeAppend c b t = (b ++ [t]).drop (b.length + 1 - c) := by
  simp [dequeAppend]

theorem foldl_dequeAppend (c : Nat) (ts : List Transition) :
    ∀ b : List Transition, b.length ≤ c →
      ts.foldl (dequeAppend c) b = (b ++ ts).drop (b.length + ts.length - c) := by
  induction ts with
  | nil =>
    intro b hb
    simp [Nat.sub_eq_zero_of_le hb]
  | cons t ts ih =>
    intro b hb
    rw [List.foldl_cons,
      ih (dequeAppend c b t) (by rw [dequeAppend_length]; omega),
      dequeAppend_length, dequeAppend_eq,
      ← List.drop_append_of_le_length
        (show b.length + 1 - c ≤ (b ++ [t]).length by simp),
      List.drop_drop, List.append_assoc, List.singleton_append]
    congr 1
    simp only [List.length_cons]
    omega

theorem pushList_capacity (rb : ReplayBuffer) (ts : List Transition) :
    (rb.pushList ts).capacity = rb.capacity := by
  induction ts generalizing rb with
  | nil => rfl
  | cons t ts ih => exact ih (rb.push t)

theorem pushList_buffer (rb : ReplayBuffer) (ts : List Transition) :
    (rb.pushList ts).buffer = ts.foldl (dequeAppend rb.capacity) rb.buffer := by
  induction ts generalizing rb with
  | nil => rfl
  | cons t ts ih =>
    show ((rb.push t).pushList ts).buffer = _
    rw [ih (rb.push t)]
    rfl

theorem tail_append_of_ne_nil (l l2 : List Transition) (h : l ≠ []) :
    (l ++ l2).tail = l.tail ++ l2 := by
  cases l with
  | nil => exact absurd rfl h
  | cons x xs => rfl

/-- Claim C2: a `ReplayBuffer` of capacity `C` never grows past `C`
transitions; once more than `C` pushes have happened its size is exactly
`C`; after any sequence of pushes starting from the empty buffer it holds
exactly the most recent `C` pushes in insertion order; and a push into a
full buffer of positive capacity evicts exactly the single oldest stored
transition (strict FIFO). -/
theorem replay_push_bounded_fifo (c : Nat) (ts : List Transition)
    (rb : ReplayBuffer) (t : Transition) :
    ((ReplayBuffer.init c).pushList ts).size ≤ c ∧
    (c < ts.length → ((ReplayBuffer.init c).pushList ts).size = c) ∧
    ((ReplayBuffer.init c).pushList ts).buffer = ts.drop (ts.length - c) ∧
    (rb.size = rb.capacity → 0 < rb.capacity →
      (rb.push t).buffer = rb.buffer.tail ++ [t]) := by
  have hbuf : ((ReplayBuffer.init c).pushList ts).buffer =
      ts.drop (ts.length - c) := by
    rw [pushList_buffer]
    have := foldl_dequeAppend c ts [] (by simp)
    simpa [ReplayBuffer.init] using this
  have hsize : ((ReplayBuffer.init c).pushList ts).size =
      ts.length - (ts.length - c) := by
    rw [ReplayBuffer.size, hbuf, List.length_drop]
  refine ⟨by omega, fun h => by omega, hbuf, fun hfull hpos => ?_⟩
  rw [ReplayBuffer.size] at hfull
  show dequeAppend rb.capacity rb.buffer t = _
  rw [dequeAppend_eq, hfull, Nat.add_sub_cancel_left, List.drop_one,
    tail_append_of_ne_nil]
  intro hnil
  rw [hnil] at hfull
  simp at hfull
  omega

/-- A concrete transition used by the concrete-input theorems. -/
def wT (n : Nat) : Transition :=
  { state := [(n : Rat)], action := 0, reward := 0, next_state := [], done := false }

/-- Witness for C2: capacity 3, five pushes — the buffer holds exactly the
last three transitions in insertion order, and a sixth push into the full
buffer evicts the oldest entry. -/
theorem replay_push_bounded_fifo_witness :
    (3 < ([wT 1, wT 2, wT 3, wT 4, wT 5] : List Transition).length ∧
      ((ReplayBuffer.init 3).pushList [wT 1, wT 2, wT 3, wT 4, wT 5]).size = 3) ∧
    ((ReplayBuffer.init 3).pushList [wT 1, wT 2, wT 3, wT 4, wT 5]).buffer =
      [wT 3, wT 4, wT 5] ∧
    ((ReplayBuffer.mk 3 [wT 1, wT 2, wT 3]).push (wT 4)).buffer =
      [wT 2, wT 3, wT 4] :=
  ⟨⟨by decide,
    (replay_push_bounded_fifo 3 [wT 1, wT 2, wT 3, wT 4, wT 5]
      (ReplayBuffer.mk 3 [wT 1, wT 2, wT 3]) (wT 4)).2.1 (by decide)⟩,
   (replay_push_bounded_fifo 3 [wT 1, wT 2, wT 3, wT 4, wT 5]
      (ReplayBuffer.mk 3 [wT 1, wT 2, wT 3]) (wT 4)).2.2.1,
   (replay_push_bounded_fifo 3 [wT 1, wT 2, wT 3, wT 4, wT 5]
      (ReplayBuffer.mk 3 [wT 1, wT 2, wT 3]) (wT 4)).2.2.2 rfl (by decide)⟩

/-- Claim C10: `ReplayBuffer.sample` is non-destructive — the method never
writes `self.buffer`, so contents, insertion order and size are unchanged
by a sample call. -/
theorem sample_nondestructive (rb : ReplayBuffer) (k : Nat) (sel : List Nat)
    (hk : k ≤ rb.size) :
    (rb.sample k sel).2 = rb ∧ (rb.sample k sel).2.buffer = rb.buffer ∧
    (rb.sample k sel).2.size = rb.size :=
  ⟨rfl, rfl, rfl⟩

/-- Witness for C10 at a concrete two-element buffer. -/
theorem sample_nondestructive_witness :
    1 ≤ (ReplayBuffer.mk 3 [wT 1, wT 2]).size ∧
    ((ReplayBuffer.mk 3 [wT 1, wT 2]).sample 1 [0]).2 =
      ReplayBuffer.mk 3 [wT 1, wT 2] :=
  ⟨by decide, (sample_nondestructive (ReplayBuffer.mk 3 [wT 1, wT 2]) 1 [0]
    (by decide)).1⟩

/-
  Helper lemmas about `sample`.
-/

/-- A placeholder transition used only as a `getD` default. -/
def defaultT : Transition :=
  { state := [], action := 0, reward := 0, next_state := [], done := false }

theorem getD_map_lt {α β : Type} (f : α → β) (l : List α) (j : Nat)
    (d : β) (e : α) (h : j < l.length) :
    (l.map f).getD j d = f (l.getD j e) := by
  induction l generalizing j with
  | nil => simp at h
  | cons x xs ih =>
    cases j with
    | zero => rfl
    | succ j => exact ih j (Nat.lt_of_succ_lt_succ h)

theorem getD_mem_of_lt {α : Type} (l : List α) (j : Nat) (d : α)
    (h : j < l.length) : l.getD j d ∈ l := by
  rw [List.getD_eq_getElem l d h]
  exact List.getElem_mem h

theorem drawBatch_length (buf : List Transition) (sel : List Nat)
    (h : ∀ i ∈ sel, i < buf.length) :
    (drawBatch buf sel).length = sel.length := by
  induction sel with
  | nil => rfl
  | cons i sel ih =>
    have hi0 : i < buf.length := h i (List.mem_cons_self i sel)
    match ht : buf[i]? with
    | none =>
      have := List.getElem?_eq_none_iff.mp ht
      omega
    | some t =>
      rw [drawBatch, List.filterMap_cons, ht]
      show (drawBatch buf sel).length + 1 = sel.length + 1
      rw [ih (fun j hj => h j (List.mem_cons_of_mem i hj))]

theorem drawBatch_subset (buf : List Transition) (sel : List Nat) :
    ∀ x ∈ drawBatch buf sel, x ∈ buf := by
  intro x hx
  rw [drawBatch, List.mem_filterMap] at hx
  obtain ⟨i, _, hi⟩ := hx
  exact List.getElem?_mem hi

theorem sample_ok (rb : ReplayBuffer) (k : Nat) (sel : List Nat)
    (hk1 : 1 ≤ k) (hk : k ≤ rb.size) (hlen : sel.length = k)
    (hv : ∀ i ∈ sel, i < rb.buffer.length) :
    (rb.sample k sel).1 = .ok (mkBatch (drawBatch rb.buffer sel)) := by
  have hnlt : ¬ rb.buffer.length < k := by
    rw [ReplayBuffer.size] at hk
    omega
  have hne : (drawBatch rb.buffer sel).isEmpty = false := by
    have hlb := drawBatch_length rb.buffer sel hv
    rw [hlen] at hlb
    cases hb : drawBatch rb.buffer sel with
    | nil =>
      rw [hb] at hlb
      simp at hlb
      omega
    | cons x xs => rfl
  simp [ReplayBuffer.sample, hnlt, hne]

/-- Claim C5, amended: for every `batchSize k ≥ 1` (with `sel` the explicit
without-replacement random draw of `random.sample`), `sample(k)` with
`k > size()` fails with the insufficient-data error, and with
`k ≤ size()` returns five parallel sequences of length `k` in which the
five entries at each index all come from one stored transition.  (The
original claim is false at `k = 0`, where the code raises on unpacking.) -/
theorem sample_batch_spec (rb : ReplayBuffer) (k : Nat) (sel : List Nat)
    (hk1 : 1 ≤ k) (hlen : sel.length = k) (hnodup : sel.Nodup)
    (hv : ∀ i ∈ sel, i < rb.buffer.length) :
    (rb.size < k → (rb.sample k sel).1 = .error .insufficientData) ∧
    (k ≤ rb.size → ∃ b : Batch, (rb.sample k sel).1 = .ok b ∧
      b.states.length = k ∧ b.actions.length = k ∧ b.rewards.length = k ∧
      b.next_states.length = k ∧ b.dones.length = k ∧
      ∀ j, j < k → ∃ t : Transition, t ∈ rb.buffer ∧
        b.states.getD j [] = t.state ∧ b.actions.getD j 0 = t.action ∧
        b.rewards.getD j 0 = t.reward ∧
        b.next_states.getD j [] = t.next_state ∧
        b.dones.getD j false = t.done) := by
  constructor
  · intro h
    rw [ReplayBuffer.size] at h
    simp [ReplayBuffer.sample, h]
  · intro hk
    refine ⟨mkBatch (drawBatch rb.buffer sel), sample_ok rb k sel hk1 hk hlen hv,
      ?_, ?_, ?_, ?_, ?_, ?_⟩
    · rw [mkBatch]
      simp [drawBatch_length rb.buffer sel hv, hlen]
    · rw [mkBatch]
      simp [drawBatch_length rb.buffer sel hv, hlen]
    · rw [mkBatch]
      simp [drawBatch_length rb.buffer sel hv, hlen]
    · rw [mkBatch]
      simp [drawBatch_length rb.buffer sel hv, hlen]
    · rw [mkBatch]
      simp [drawBatch_length rb.buffer sel hv, hlen]
    · intro j hj
      have hjb : j < (drawBatch rb.buffer sel).length := by
        rw [drawBatch_length rb.buffer sel hv, hlen]
        exact hj
      refine ⟨(drawBatch rb.buffer sel).getD j defaultT,
        drawBatch_subset rb.buffer sel _ (getD_mem_of_lt _ j defaultT hjb),
        ?_, ?_, ?_, ?_, ?_⟩
      · exact getD_map_lt (·.state) _ j [] defaultT hjb
      · exact getD_map_lt (·.action) _ j 0 defaultT hjb
      · exact getD_map_lt (·.reward) _ j 0 defaultT hjb
      · exact getD_map_lt (·.next_state) _ j [] defaultT hjb
      · exact getD_map_lt (·.done) _ j false defaultT hjb

/-- Counterexample for C5 as stated: with one stored transition,
`sample(0)` has `k = 0 ≤ size() = 1`, yet the call raises (unpacking
`zip(*[])` into five names) instead of returning five empty aligned
sequences. -/
theorem sample_zero_raises :
    ((ReplayBuffer.mk 10000 [wT 0]).sample 0 []).1 = .error .unpackError := rfl

/-- Witness for the amended C5 at a concrete buffer with `k = 1`. -/
theorem sample_batch_spec_witness :
    (1 ≤ (ReplayBuffer.mk 3 [wT 1, wT 2]).size ∧
      ((ReplayBuffer.mk 3 [wT 1, wT 2]).sample 1 [1]).1 =
        .ok (mkBatch [wT 2])) ∧
    (∃ b : Batch, ((ReplayBuffer.mk 3 [wT 1, wT 2]).sample 1 [1]).1 = .ok b ∧
      b.states.length = 1 ∧ b.actions.length = 1 ∧ b.rewards.length = 1 ∧
      b.next_states.length = 1 ∧ b.dones.length = 1 ∧
      ∀ j, j < 1 → ∃ t : Transition, t ∈ (ReplayBuffer.mk 3 [wT 1, wT 2]).buffer ∧
        b.states.getD j [] = t.state ∧ b.actions.getD j 0 = t.action ∧
        b.rewards.getD j 0 = t.reward ∧
        b.next_states.getD j [] = t.next_state ∧
        b.dones.getD j false = t.done) :=
  ⟨⟨by decide, rfl⟩,
   (sample_batch_spec (ReplayBuffer.mk 3 [wT 1, wT 2]) 1 [1] (by decide)
      (by decide) (by decide) (by decide)).2 (by decide)⟩

/-
  Concrete networks for the concrete-input theorems (standing in for
  the torch random initialization, whose values are irrelevant here).
-/

/-- Zero-filled weights with the shapes `DQN(state_dim, action_dim)`
allocates (hidden size 64). -/
def zeroLinear (inDim outDim : Nat) : Linear :=
  { weight := List.replicate outDim (List.replicate inDim 0)
    bias := List.replicate outDim 0 }

/-- A zero-initialized `DQN(state_dim, action_dim)`. -/
def zeroDQN (state_dim action_dim : Nat) : DQN :=
  { fc1 := zeroLinear state_dim 64
    fc2 := zeroLinear 64 64
    fc3 := zeroLinear 64 action_dim }

/-- A 1-1-1-1 network used where only the scalar fields of the agent matter. -/
def tinyNet : DQN :=
  { fc1 := { weight := [[1]], bias := [0] }
    fc2 := { weight := [[1]], bias := [0] }
    fc3 := { weight := [[1]], bias := [0] } }

/-- Counterexample for C3: constructing a `DQNAgent` with `γ = 2 ∉ [0,1]`
and `batchSize = 0` succeeds — the constructor raises nothing (the source
defines no `ConfigurationError` and performs no validation) and the
invalid instance is returned with the values stored verbatim. -/
theorem init_accepts_invalid_params :
    (DQNAgent.init 4 2 (1/1000) 2 1 (199/200) (1/100) 10000 0
        (zeroDQN 4 2)).gamma = 2 ∧
    (DQNAgent.init 4 2 (1/1000) 2 1 (199/200) (1/100) 10000 0
        (zeroDQN 4 2)).batch_size = 0 :=
  ⟨rfl, rfl⟩

/-- Claim C3, amended: `DQNAgent.__init__` performs no parameter
validation: for every choice of arguments (including `numActions = 0`,
`batchSize = 0`, and `γ ∉ [0,1]`) construction succeeds, every parameter
is stored verbatim, the replay buffer starts empty with the given
capacity, and the target network starts as a hard copy of the online
network.  No `ConfigurationError` exists in the code. -/
theorem init_stores_params_verbatim (sd ad : Nat) (lr g e ed em : Rat)
    (bufsz bsz : Nat) (net : DQN) :
    (DQNAgent.init sd ad lr g e ed em bufsz bsz net).state_dim = sd ∧
    (DQNAgent.init sd ad lr g e ed em bufsz bsz net).action_dim = ad ∧
    (DQNAgent.init sd ad lr g e ed em bufsz bsz net).gamma = g ∧
    (DQNAgent.init sd ad lr g e ed em bufsz bsz net).epsilon = e ∧
    (DQNAgent.init sd ad lr g e ed em bufsz bsz net).epsilon_decay = ed ∧
    (DQNAgent.init sd ad lr g e ed em bufsz bsz net).epsilon_min = em ∧
    (DQNAgent.init sd ad lr g e ed em bufsz bsz net).batch_size = bsz ∧
    (DQNAgent.init sd ad lr g e ed em bufsz bsz net).q_network = net ∧
    (DQNAgent.init sd ad lr g e ed em bufsz bsz net).target_network = net ∧
    (DQNAgent.init sd ad lr g e ed em bufsz bsz net).replay_buffer =
      ReplayBuffer.mk bufsz [] :=
  ⟨rfl, rfl, rfl, rfl, rfl, rfl, rfl, rfl, rfl, rfl⟩

/-
  Exploration-rate decay (C7).
-/

theorem decayIter_epsilon_aux (m : Nat) :
    ∀ a : DQNAgent, 0 < a.epsilon_decay → a.epsilon_decay ≤ 1 →
      0 < a.epsilon → a.epsilon_min ≤ a.epsilon →
      (DQNAgent.decayIter m a).epsilon =
        max a.epsilon_min (a.epsilon * a.epsilon_decay ^ m) := by
  induction m with
  | zero =>
    intro a hd0 hd1 he hm
    show a.epsilon = max a.epsilon_min (a.epsilon * a.epsilon_decay ^ 0)
    rw [pow_zero, mul_one, max_eq_right hm]
  | succ m ih =>
    intro a hd0 hd1 he hm
    have heps : a.decay_epsilon.epsilon =
        max a.epsilon_min (a.epsilon * a.epsilon_decay) := rfl
    have he2 : 0 < a.decay_epsilon.epsilon := by
      rw [heps]
      exact lt_max_of_lt_right (mul_pos he hd0)
    have hm2 : a.decay_epsilon.epsilon_min ≤ a.decay_epsilon.epsilon :=
      le_max_left _ _
    have H := ih a.decay_epsilon hd0 hd1 he2 hm2
    rw [show a.decay_epsilon.epsilon_min = a.epsilon_min from rfl,
      show a.decay_epsilon.epsilon_decay = a.epsilon_decay from rfl] at H
    show (DQNAgent.decayIter m a.decay_epsilon).epsilon = _
    rw [H, heps]
    rcases le_total a.epsilon_min (a.epsilon * a.epsilon_decay) with hle | hle
    · rw [max_eq_right hle]
      congr 1
      ring
    · rw [max_eq_left hle]
      have hminpos : 0 < a.epsilon_min :=
        lt_of_lt_of_le (mul_pos he hd0) hle
      have hpow1 : a.epsilon_decay ^ m ≤ 1 := pow_le_one₀ hd0.le hd1
      have hpow0 : 0 ≤ a.epsilon_decay ^ m := pow_nonneg hd0.le m
      have h1 : a.epsilon_min * a.epsilon_decay ^ m ≤ a.epsilon_min := by
        nlinarith
      have h2 : a.epsilon * a.epsilon_decay ^ (m + 1) ≤ a.epsilon_min := by
        have hstep : a.epsilon * a.epsilon_decay ^ (m + 1) =
            (a.epsilon * a.epsilon_decay) * a.epsilon_decay ^ m := by ring
        rw [hstep]
        nlinarith
      rw [max_eq_left h1, max_eq_left h2]

/-- Claim C7: after `m` calls of `decay_epsilon` from an agent in the spec
domain (`ε₀ ∈ (0,1]`, `decayRate ∈ (0,1]`, `εmin ≤ ε₀`), the exploration
rate equals `max(εmin, ε₀ · decayRate^m)`, and the rate is monotonically
non-increasing from one call to the next. -/
theorem decay_epsilon_closed_form (a : DQNAgent) (m : Nat)
    (hd0 : 0 < a.epsilon_decay) (hd1 : a.epsilon_decay ≤ 1)
    (he0 : 0 < a.epsilon) (he1 : a.epsilon ≤ 1)
    (hm : a.epsilon_min ≤ a.epsilon) :
    (DQNAgent.decayIter m a).epsilon =
      max a.epsilon_min (a.epsilon * a.epsilon_decay ^ m) ∧
    (DQNAgent.decayIter (m + 1) a).epsilon ≤
      (DQNAgent.decayIter m a).epsilon := by
  refine ⟨decayIter_epsilon_aux m a hd0 hd1 he0 hm, ?_⟩
  rw [decayIter_epsilon_aux m a hd0 hd1 he0 hm,
    decayIter_epsilon_aux (m + 1) a hd0 hd1 he0 hm]
  refine max_le_max le_rfl ?_
  refine mul_le_mul_of_nonneg_left ?_ he0.le
  exact pow_le_pow_of_le_one hd0.le hd1 (Nat.le_succ m)

/-- Witness for C7: `ε₀ = 1`, `decayRate = 1/2`, `εmin = 1/100`, three
decay calls. -/
theorem decay_epsilon_closed_form_witness :
    (0 < (DQNAgent.init 4 2 (1/1000) (19/20) 1 (1/2) (1/100) 100 64
        tinyNet).epsilon_decay ∧
      (DQNAgent.decayIter 3 (DQNAgent.init 4 2 (1/1000) (19/20) 1 (1/2)
        (1/100) 100 64 tinyNet)).epsilon =
        max ((1:Rat)/100) (1 * ((1:Rat)/2) ^ 3)) ∧
    (DQNAgent.decayIter 4 (DQNAgent.init 4 2 (1/1000) (19/20) 1 (1/2)
        (1/100) 100 64 tinyNet)).epsilon ≤
      (DQNAgent.decayIter 3 (DQNAgent.init 4 2 (1/1000) (19/20) 1 (1/2)
        (1/100) 100 64 tinyNet)).epsilon :=
  ⟨⟨by norm_num [DQNAgent.init],
    (decay_epsilon_closed_form (DQNAgent.init 4 2 (1/1000) (19/20) 1 (1/2)
        (1/100) 100 64 tinyNet) 3 (by norm_num [DQNAgent.init])
        (by norm_num [DQNAgent.init]) (by norm_num [DQNAgent.init])
        (by norm_num [DQNAgent.init]) (by norm_num [DQNAgent.init])).1⟩,
   (decay_epsilon_closed_form (DQNAgent.init 4 2 (1/1000) (19/20) 1 (1/2)
      (1/100) 100 64 tinyNet) 3 (by norm_num [DQNAgent.init])
      (by norm_num [DQNAgent.init]) (by norm_num [DQNAgent.init])
      (by norm_num [DQNAgent.init]) (by norm_num [DQNAgent.init])).2⟩

/-- Claim C9: `update_target_network` hard-copies the online parameters into
the target network, so immediately afterwards the two networks evaluate
identically on every state; the online network itself is untouched, and
the equality persists across the operations that do not apply a gradient
step (storing a transition, decaying ε). -/
theorem sync_target_equalizes (a : DQNAgent) (s : Obs) (t : Transition) :
    a.update_target_network.target_network.forward s =
      a.update_target_network.q_network.forward s ∧
    a.update_target_network.target_network = a.q_network ∧
    a.update_target_network.q_network = a.q_network ∧
    ((a.update_target_network.store_transition t).decay_epsilon).target_network.forward
        s =
      ((a.update_target_network.store_transition t).decay_epsilon).q_network.forward
        s :=
  ⟨rfl, rfl, rfl, rfl⟩

/-
  First-argmax property of `argmaxIdx` (C8).
-/

theorem argmaxAux_spec (rest : List Rat) :
    ∀ (front : List Rat) (bi : Nat),
      bi < front.length →
      (∀ j, j < bi → front.getD j 0 < front.getD bi 0) →
      (∀ j, bi ≤ j → j < front.length → front.getD j 0 ≤ front.getD bi 0) →
      argmaxAux bi (front.getD bi 0) front.length rest <
          (front ++ rest).length ∧
        (∀ j, j < (front ++ rest).length → (front ++ rest).getD j 0 ≤
          (front ++ rest).getD
            (argmaxAux bi (front.getD bi 0) front.length rest) 0) ∧
        (∀ j, j < argmaxAux bi (front.getD bi 0) front.length rest →
          (front ++ rest).getD j 0 <
            (front ++ rest).getD
              (argmaxAux bi (front.getD bi 0) front.length rest) 0) := by
  induction rest with
  | nil =>
    intro front bi hbi hlt hle
    simp only [argmaxAux, List.append_nil]
    refine ⟨hbi, ?_, ?_⟩
    · intro j hj
      rcases Nat.lt_or_ge j bi with h | h
      · exact le_of_lt (hlt j h)
      · exact hle j h hj
    · intro j hj
      exact hlt j hj
  | cons q qs ih =>
    intro front bi hbi hlt hle
    have hlen1 : (front ++ [q]).length = front.length + 1 := by simp
    have happ : (front ++ [q]) ++ qs = front ++ q :: qs := by simp
    by_cases hq : front.getD bi 0 < q
    · have hstep : argmaxAux bi (front.getD bi 0) front.length (q :: qs) =
          argmaxAux front.length q (front.length + 1) qs := by
        simp only [argmaxAux]
        rw [if_pos hq]
      have hq2 : (front ++ [q]).getD front.length 0 = q := by
        rw [List.getD_append_right front [q] 0 front.length le_rfl,
          Nat.sub_self]
        rfl
      have hlt2 : ∀ j, j < front.length →
          (front ++ [q]).getD j 0 < (front ++ [q]).getD front.length 0 := by
        intro j hj
        rw [hq2, List.getD_append front [q] 0 j hj]
        have hjb : front.getD j 0 ≤ front.getD bi 0 := by
          rcases Nat.lt_or_ge j bi with h | h
          · exact le_of_lt (hlt j h)
          · exact hle j h hj
        exact lt_of_le_of_lt hjb hq
      have hle2 : ∀ j, front.length ≤ j → j < (front ++ [q]).length →
          (front ++ [q]).getD j 0 ≤ (front ++ [q]).getD front.length 0 := by
        intro j h1 h2
        rw [hlen1] at h2
        have hje : j = front.length := by omega
        rw [hje]
      have H := ih (front ++ [q]) front.length (by rw [hlen1]; omega)
        hlt2 hle2
      rw [hq2, hlen1, happ] at H
      rw [hstep]
      exact H
    · have hstep : argmaxAux bi (front.getD bi 0) front.length (q :: qs) =
          argmaxAux bi (front.getD bi 0) (front.length + 1) qs := by
        simp only [argmaxAux]
        rw [if_neg hq]
      have hbv2 : (front ++ [q]).getD bi 0 = front.getD bi 0 :=
        List.getD_append front [q] 0 bi hbi
      have hlt2 : ∀ j, j < bi →
          (front ++ [q]).getD j 0 < (front ++ [q]).getD bi 0 := by
        intro j hj
        rw [hbv2, List.getD_append front [q] 0 j (lt_trans hj hbi)]
        exact hlt j hj
      have hle2 : ∀ j, bi ≤ j → j < (front ++ [q]).length →
          (front ++ [q]).getD j 0 ≤ (front ++ [q]).getD bi 0 := by
        intro j h1 h2
        rw [hbv2, hlen1] at *
        rcases Nat.lt_or_ge j front.length with h | h
        · rw [List.getD_append front [q] 0 j h]
          exact hle j h1 h
        · have hje : j = front.length := by omega
          rw [hje, List.getD_append_right front [q] 0 front.length le_rfl,
            Nat.sub_self]
          exact le_of_not_lt hq
      have H := ih (front ++ [q]) bi (by rw [hlen1]; omega) hlt2 hle2
      rw [hbv2, hlen1, happ] at H
      rw [hstep]
      exact H

theorem argmaxIdx_spec (l : List Rat) (hne : l ≠ []) :
    argmaxIdx l < l.length ∧
    (∀ j, j < l.length → l.getD j 0 ≤ l.getD (argmaxIdx l) 0) ∧
    (∀ j, j < argmaxIdx l → l.getD j 0 < l.getD (argmaxIdx l) 0) := by
  cases l with
  | nil => exact absurd rfl hne
  | cons q qs =>
    have H := argmaxAux_spec qs [q] 0 (by simp)
      (fun j hj => absurd hj (Nat.not_lt_zero j))
      (fun j h1 h2 => by
        have hj0 : j = 0 := by
          simp only [List.length_singleton] at h2
          omega
        rw [hj0])
    simpa only [argmaxIdx, List.singleton_append, List.getD_cons_zero,
      List.length_singleton] using H

/-- Claim C8: with `training = false`, `get_action` consults no random draw —
it is a deterministic function of the online parameters and the state —
and returns the argmax of the evaluated Q-values, ties broken by the
lowest action index (every strictly earlier index holds a strictly smaller
Q-value). -/
theorem get_action_greedy_deterministic (a : DQNAgent) (s : Obs)
    (r1 r2 : Rat) (n1 n2 : Nat) (hne : a.q_network.forward s ≠ []) :
    a.get_action s false r1 n1 = a.get_action s false r2 n2 ∧
    a.get_action s false r1 n1 = argmaxIdx (a.q_network.forward s) ∧
    a.get_action s false r1 n1 < (a.q_network.forward s).length ∧
    (∀ j, j < (a.q_network.forward s).length →
      (a.q_network.forward s).getD j 0 ≤
        (a.q_network.forward s).getD (a.get_action s false r1 n1) 0) ∧
    (∀ j, j < a.get_action s false r1 n1 →
      (a.q_network.forward s).getD j 0 <
        (a.q_network.forward s).getD (a.get_action s false r1 n1) 0) := by
  have hg : ∀ (r : Rat) (n : Nat),
      a.get_action s false r n = argmaxIdx (a.q_network.forward s) := by
    intro r n
    simp [DQNAgent.get_action]
  obtain ⟨h1, h2, h3⟩ := argmaxIdx_spec (a.q_network.forward s) hne
  rw [hg r1 n1, hg r2 n2]
  exact ⟨rfl, rfl, h1, h2, h3⟩

/-- A concrete 2-input, 3-action network whose Q-values on `[2, 3]` are
`[2, 3, 3]`: a tie between actions 1 and 2. -/
def netW8 : DQN :=
  { fc1 := { weight := [[1, 0], [0, 1]], bias := [0, 0] }
    fc2 := { weight := [[1, 0], [0, 1]], bias := [0, 0] }
    fc3 := { weight := [[1, 0], [0, 1], [0, 1]], bias := [0, 0, 0] } }

/-- The agent holding `netW8` as its online network. -/
def agentW8 : DQNAgent :=
  DQNAgent.init 2 3 1 1 1 1 1 100 64 netW8

/-- Witness for C8: on Q-values `[2, 3, 3]` the greedy action is 1 — the
lowest index of the tied maximum — independently of the random draws. -/
theorem get_action_greedy_deterministic_witness :
    agentW8.q_network.forward [2, 3] ≠ [] ∧
    agentW8.get_action [2, 3] false 0 0 = 1 ∧
    agentW8.get_action [2, 3] false 0 0 = agentW8.get_action [2, 3] false 1 2 :=
  ⟨by apply List.cons_ne_nil,
   by norm_num [DQNAgent.get_action, agentW8, netW8, DQNAgent.init,
     DQN.forward, Linear.apply, dot, relu, argmaxIdx, argmaxAux],
   (get_action_greedy_deterministic agentW8 [2, 3] 0 1 0 2
     (by apply List.cons_ne_nil)).1⟩

/-
  Bootstrap-target formula (C1) and the shape of `train` (C6).
-/

theorem getD_zipWith3_lt {α β γ δ : Type} (f : α → β → γ → δ)
    (l1 : List α) (l2 : List β) (l3 : List γ) (j : Nat)
    (d : δ) (d1 : α) (d2 : β) (d3 : γ)
    (h1 : j < l1.length) (h2 : j < l2.length) (h3 : j < l3.length) :
    (List.zipWith3 f l1 l2 l3).getD j d =
      f (l1.getD j d1) (l2.getD j d2) (l3.getD j d3) := by
  induction l1 generalizing l2 l3 j with
  | nil => simp at h1
  | cons x xs ih =>
    cases l2 with
    | nil => simp at h2
    | cons y ys =>
      cases l3 with
      | nil => simp at h3
      | cons z zs =>
        cases j with
        | zero => rfl
        | succ j =>
          exact ih ys zs j (Nat.lt_of_succ_lt_succ h1)
            (Nat.lt_of_succ_lt_succ h2) (Nat.lt_of_succ_lt_succ h3)

/-- Claim C1: in `DQNAgent.train`, the bootstrap target of the `j`-th sampled
transition equals `reward + (1 − done) · γ · max(targetNet(nextState))`,
the target-network outputs entering only as values; in particular, for a
terminal transition (`done = true`) the bootstrap target equals the reward
exactly, so no future value crosses an episode boundary. -/
theorem bootstrap_target_formula (a : DQNAgent) (rewards : List Rat)
    (dones : List Bool) (nextStates : List Obs) (j : Nat)
    (h1 : j < rewards.length) (h2 : j < dones.length)
    (h3 : j < nextStates.length) :
    (a.bootstrapTargets rewards dones (nextStates.map
        (fun s => listMax (a.target_network.forward s)))).getD j 0 =
      rewards.getD j 0 + (1 - boolToRat (dones.getD j false)) * a.gamma *
        listMax (a.target_network.forward (nextStates.getD j [])) ∧
    (dones.getD j false = true →
      (a.bootstrapTargets rewards dones (nextStates.map
          (fun s => listMax (a.target_network.forward s)))).getD j 0 =
        rewards.getD j 0) := by
  have hmap : j < (nextStates.map
      (fun s => listMax (a.target_network.forward s))).length := by
    simpa using h3
  have hmv : (nextStates.map
        (fun s => listMax (a.target_network.forward s))).getD j 0 =
      listMax (a.target_network.forward (nextStates.getD j [])) :=
    getD_map_lt (fun s => listMax (a.target_network.forward s))
      nextStates j 0 [] h3
  have hz := getD_zipWith3_lt
    (fun r d m => r + (1 - boolToRat d) * a.gamma * m)
    rewards dones _ j 0 0 false 0 h1 h2 hmap
  constructor
  · rw [DQNAgent.bootstrapTargets, hz, hmv]
  · intro hd
    rw [DQNAgent.bootstrapTargets, hz, hmv, hd]
    simp [boolToRat]

/-- A concrete one-hidden-unit target network: Q-values on `[5, 5, 5, 5]`
are `[20, 40]`. -/
def netW1 : DQN :=
  { fc1 := { weight := [[1, 1, 1, 1]], bias := [0] }
    fc2 := { weight := [[1]], bias := [0] }
    fc3 := { weight := [[1], [2]], bias := [0, 0] } }

/-- Agent holding `netW1` (as both networks, per the constructor). -/
def agentW1 : DQNAgent := DQNAgent.init 4 2 1 (19/20) 1 1 1 10000 64 netW1

/-- Witness for C1 at the end-to-end scenario of the spec: a single terminal
transition with reward `−20` has bootstrap target exactly `−20`. -/
theorem bootstrap_target_formula_witness :
    0 < ([(-20 : Rat)] : List Rat).length ∧
    (agentW1.bootstrapTargets [-20] [true]
        ([[(5 : Rat), 5, 5, 5]].map
          (fun s => listMax (agentW1.target_network.forward s)))).getD 0 0 =
      -20 :=
  ⟨by decide,
   (bootstrap_target_formula agentW1 [-20] [true] [[(5 : Rat), 5, 5, 5]] 0
     (by decide) (by decide) (by decide)).2 rfl⟩

theorem zipWith_sq_sum_nonneg (l1 l2 : List Rat) :
    0 ≤ (List.zipWith (fun p t => (p - t) ^ 2) l1 l2).sum := by
  induction l1 generalizing l2 with
  | nil => simp
  | cons x xs ih =>
    cases l2 with
    | nil => simp
    | cons y ys =>
      rw [List.zipWith_cons_cons, List.sum_cons]
      exact add_nonneg (sq_nonneg _) (ih ys)

theorem mseLoss_nonneg (pred target : List Rat) : 0 ≤ mseLoss pred target := by
  rw [mseLoss]
  exact div_nonneg (zipWith_sq_sum_nonneg pred target)
    (Nat.cast_nonneg pred.length)

/-- Claim C6: `train` is a silent no-op — returns `None`, raises nothing,
changes nothing — whenever the buffer holds fewer than `batch_size`
transitions; otherwise (for a spec-valid `batch_size ≥ 1` and a valid
random draw) it returns the mean-squared error between the gathered
online Q-values and the bootstrap targets, a non-negative scalar. -/
theorem train_noop_or_nonneg_loss (optStep : DQN → Rat → DQN)
    (a : DQNAgent) (sel : List Nat) (hbs : 1 ≤ a.batch_size) :
    (a.replay_buffer.size < a.batch_size →
      DQNAgent.train optStep a sel = .ok (none, a)) ∧
    (a.batch_size ≤ a.replay_buffer.size → sel.length = a.batch_size →
      (∀ i ∈ sel, i < a.replay_buffer.buffer.length) →
      ∃ l a2, DQNAgent.train optStep a sel = .ok (some l, a2) ∧
        l = mseLoss
          (List.zipWith (fun s act => (a.q_network.forward s).getD act 0)
            (mkBatch (drawBatch a.replay_buffer.buffer sel)).states
            (mkBatch (drawBatch a.replay_buffer.buffer sel)).actions)
          (a.bootstrapTargets
            (mkBatch (drawBatch a.replay_buffer.buffer sel)).rewards
            (mkBatch (drawBatch a.replay_buffer.buffer sel)).dones
            ((mkBatch (drawBatch a.replay_buffer.buffer sel)).next_states.map
              (fun s => listMax (a.target_network.forward s)))) ∧
        0 ≤ l) := by
  constructor
  · intro h
    rw [DQNAgent.train, if_pos h]
  · intro hge hlen hv
    have hok := sample_ok a.replay_buffer a.batch_size sel hbs hge hlen hv
    rw [DQNAgent.train, if_neg (not_lt.mpr hge), hok]
    exact ⟨_, _, rfl, rfl, mseLoss_nonneg _ _⟩

/-- Witness for C6: batch size 1 with exactly one stored transition. -/
theorem train_noop_or_nonneg_loss_witness :
    (1 ≤ ((DQNAgent.init 1 1 1 1 1 1 1 100 1 tinyNet).store_transition
        (Transition.mk [1] 0 (-1) [2] true)).batch_size ∧
      ((DQNAgent.init 1 1 1 1 1 1 1 100 1 tinyNet).store_transition
        (Transition.mk [1] 0 (-1) [2] true)).batch_size ≤
        ((DQNAgent.init 1 1 1 1 1 1 1 100 1 tinyNet).store_transition
          (Transition.mk [1] 0 (-1) [2] true)).replay_buffer.size) ∧
    (∃ l a2, DQNAgent.train (fun n _ => n)
        ((DQNAgent.init 1 1 1 1 1 1 1 100 1 tinyNet).store_transition
          (Transition.mk [1] 0 (-1) [2] true)) [0] = .ok (some l, a2) ∧
      l = mseLoss
        (List.zipWith
          (fun s act =>
            (((DQNAgent.init 1 1 1 1 1 1 1 100 1 tinyNet).store_transition
              (Transition.mk [1] 0 (-1) [2] true)).q_network.forward s).getD
              act 0)
          (mkBatch (drawBatch ((DQNAgent.init 1 1 1 1 1 1 1 100 1
            tinyNet).store_transition
            (Transition.mk [1] 0 (-1) [2] true)).replay_buffer.buffer
            [0])).states
          (mkBatch (drawBatch ((DQNAgent.init 1 1 1 1 1 1 1 100 1
            tinyNet).store_transition
            (Transition.mk [1] 0 (-1) [2] true)).replay_buffer.buffer
            [0])).actions)
        (((DQNAgent.init 1 1 1 1 1 1 1 100 1 tinyNet).store_transition
            (Transition.mk [1] 0 (-1) [2] true)).bootstrapTargets
          (mkBatch (drawBatch ((DQNAgent.init 1 1 1 1 1 1 1 100 1
            tinyNet).store_transition
            (Transition.mk [1] 0 (-1) [2] true)).replay_buffer.buffer
            [0])).rewards
          (mkBatch (drawBatch ((DQNAgent.init 1 1 1 1 1 1 1 100 1
            tinyNet).store_transition
            (Transition.mk [1] 0 (-1) [2] true)).replay_buffer.buffer
            [0])).dones
          ((mkBatch (drawBatch ((DQNAgent.init 1 1 1 1 1 1 1 100 1
            tinyNet).store_transition
            (Transition.mk [1] 0 (-1) [2] true)).replay_buffer.buffer
            [0])).next_states.map
            (fun s => listMax (((DQNAgent.init 1 1 1 1 1 1 1 100 1
              tinyNet).store_transition
              (Transition.mk [1] 0 (-1) [2] true)).target_network.forward
              s)))) ∧
      0 ≤ l) :=
  ⟨⟨by decide, by decide⟩,
   (train_noop_or_nonneg_loss (fun n _ => n)
      ((DQNAgent.init 1 1 1 1 1 1 1 100 1 tinyNet).store_transition
        (Transition.mk [1] 0 (-1) [2] true)) [0] (by decide)).2
     (by decide) (by decide) (by decide)⟩

/-
  Environment state-protocol behavior (C4).
-/

/-- A concrete external world: empty edges, one expected vehicle. -/
def worldW : SumoWorld :=
  { halting := fun _ _ => 0, waiting := fun _ _ => 0
    minExpected := fun _ => 1 }

/-- Counterexample for C4: stepping a freshly constructed environment
(no `reset` has ever run, so no TraCI connection exists) fails with the
connection error of the external library — not with an `InvalidStateError`,
which the code never raises (no such class exists and `step` performs no
state check). -/
theorem step_before_reset_raises_traci_error :
    (SumoTrafficEnv.step worldW (SumoTrafficEnv.init 1000 5)
        TraciState.init 0).1 = .error .notConnected ∧
    (SumoTrafficEnv.step worldW (SumoTrafficEnv.init 1000 5)
        TraciState.init 0).1 ≠ .error .invalidStateError := by
  refine ⟨rfl, ?_⟩
  intro h
  rw [show (SumoTrafficEnv.step worldW (SumoTrafficEnv.init 1000 5)
      TraciState.init 0).1 = .error .notConnected from rfl] at h
  simp at h

/-- Claim C4, amended: `step` performs no READY-state check of its own and
the repository defines no `InvalidStateError`.  Called without an active
TraCI connection (before any `reset`, or after `close`, whose result
always has `connected = false`), it fails because the first TraCI command
raises the connection error of the library (`FatalTraCIError`, uncaught), with
the environment and connection left unchanged — so it never silently
proceeds, but the error comes from the external library, never as the
`InvalidStateError` of the spec taxonomy. -/
theorem step_not_ready_behavior (w : SumoWorld) (env : SumoTrafficEnv)
    (tr : TraciState) (action : Nat) (ha : action < 2)
    (hc : tr.connected = false) :
    SumoTrafficEnv.step w env tr action = (.error .notConnected, env, tr) ∧
    (SumoTrafficEnv.step w env tr action).1 ≠ .error .invalidStateError ∧
    (env.sumo_running = tr.connected →
      ((SumoTrafficEnv.close env tr).2).connected = false) := by
  have hstep : SumoTrafficEnv.step w env tr action =
      (.error .notConnected, env, tr) := by
    have h01 : action = 0 ∨ action = 1 := by omega
    rcases h01 with h | h <;> subst h <;>
      simp [SumoTrafficEnv.step, phases, hc]
  refine ⟨hstep, ?_, ?_⟩
  · rw [hstep]
    simp
  · intro hr
    rw [SumoTrafficEnv.close]
    by_cases hs : env.sumo_running
    · rw [if_pos hs]
    · rw [if_neg hs]
      exact hc

/-- Witness for the amended C4: a fresh environment, action 1. -/
theorem step_not_ready_behavior_witness :
    (1 < 2 ∧ TraciState.init.connected = false) ∧
    SumoTrafficEnv.step worldW (SumoTrafficEnv.init 1000 5)
        TraciState.init 1 =
      (.error .notConnected, SumoTrafficEnv.init 1000 5, TraciState.init) :=
  ⟨⟨by decide, rfl⟩,
   (step_not_ready_behavior worldW (SumoTrafficEnv.init 1000 5)
     TraciState.init 1 (by decide) rfl).1⟩

end TrafficRL
